import Mathlib

/-!
Shallow embedding of the node-network background animation of the
Psychopism website.

Sources embedded here:
* `src/animations/NodeNetworkAnimation.ts` and its refactored copy in
  `src/unnamed/part_000` (class `NodeNetworkAnimation`): node physics
  (`updateNodes`), connection computation (`updateConnections`),
  connection rendering (`renderConnection` / `drawGradientConnection`),
  node repositioning on resize (`repositionNodes`), scroll-driven frame
  skipping (`handleScroll`), and the mouse/touch drag handlers.
* `src/shared/utils/animation.ts`: `clamp`, `distance`,
  `randomVelocity`, and the `AnimationFrameManager` class.
* `src/shared/constants/app.ts`: the `APP_CONFIG.NODE_NETWORK` and
  `APP_CONFIG.PERFORMANCE` constants.

Modelling conventions: JavaScript numbers are real numbers (floating
point rounding is out of scope); every `Math.random()` draw is passed in
as an explicit parameter; JavaScript object references (a `Connection`
holding node references, `this.draggedNode`) are modelled as indices
into the node list; the JavaScript truthiness test `a || b` on a
possibly-undefined number is modelled by `jsOrNum` (0 and `undefined`
are falsy).
-/

namespace Psychopism

noncomputable section

/-- APP_CONFIG.NODE_NETWORK.MOVEMENT_SPEED (src/shared/constants/app.ts). -/
def MOVEMENT_SPEED : ℝ := 0.02

/-- APP_CONFIG.NODE_NETWORK.MAX_VELOCITY (src/shared/constants/app.ts). -/
def MAX_VELOCITY : ℝ := 0.8

/-- APP_CONFIG.NODE_NETWORK.MAX_CONNECTION_DISTANCE (src/shared/constants/app.ts). -/
def MAX_CONNECTION_DISTANCE : ℝ := 150

/-- APP_CONFIG.NODE_NETWORK.CHARACTER_SPACING (src/shared/constants/app.ts). -/
def CHARACTER_SPACING : ℝ := 8

/-- APP_CONFIG.PERFORMANCE.FRAME_SKIP_THRESHOLD (src/shared/constants/app.ts). -/
def FRAME_SKIP_THRESHOLD : ℝ := 20

/-- Helper `clamp` from src/shared/utils/animation.ts:
`Math.min(Math.max(value, min), max)`.  The `min`/`max` parameters of the
source are renamed `lo`/`hi` here to avoid clashing with the functions. -/
def clamp (value lo hi : ℝ) : ℝ := min (max value lo) hi

/-- Helper `distance` from src/shared/utils/animation.ts (also
`getDistance` in NodeNetworkAnimation.ts): Euclidean distance,
`Math.sqrt(dx * dx + dy * dy)` with `dx = x2 - x1`, `dy = y2 - y1`. -/
def distance (x1 y1 x2 y2 : ℝ) : ℝ :=
  Real.sqrt ((x2 - x1) * (x2 - x1) + (y2 - y1) * (y2 - y1))

/-- Helper `randomVelocity` from src/shared/utils/animation.ts:
`(Math.random() - 0.5) * maxSpeed` per axis; the two `Math.random()`
draws are the parameters `u1`, `u2`. -/
def randomVelocity (u1 u2 maxSpeed : ℝ) : ℝ × ℝ :=
  ((u1 - 0.5) * maxSpeed, (u2 - 0.5) * maxSpeed)

/-- JavaScript `a || b` where `a` is a possibly-undefined number:
`undefined` and `0` are falsy, any other (non-NaN) number is truthy.
Used by the drag release handlers (`originalVx || random`). -/
def jsOrNum (a : Option ℝ) (b : ℝ) : ℝ :=
  match a with
  | none => b
  | some v => if v = 0 then b else v

/-- The `Node` interface of src/unnamed/part_000 (position, velocity,
glyph, color, glyph timer, and the transient drag fields). -/
structure Node where
  x : ℝ
  y : ℝ
  vx : ℝ
  vy : ℝ
  char : String
  color : String
  lastCharUpdate : ℝ
  isDragging : Bool := false
  originalVx : Option ℝ := none
  originalVy : Option ℝ := none

/-- The random draws consumed by one `updateNodes` pass over one node:
`perturb` stands for `Math.random() < DIRECTION_CHANGE_PROBABILITY`,
`dvx`/`dvy` for the two `(Math.random() - 0.5) * 0.1` nudges,
`charInterval` for `MIN + Math.random() * (MAX - MIN)`, and
`newChar`/`newColor` for the freshly rolled glyph and color. -/
structure FrameRandom where
  perturb : Bool
  dvx : ℝ
  dvy : ℝ
  charInterval : ℝ
  newChar : String
  newColor : String

/-- Per-node body of `NodeNetworkAnimation.updateNodes` (part_000 lines
289-331): skip movement for dragged nodes; otherwise integrate position
by `velocity * deltaTime * MOVEMENT_SPEED`, bounce off the edges
(invert the axis velocity and clamp the coordinate into `[0, bound]`
when the coordinate is `<= 0` or `>= bound`), optionally perturb the
velocity and clamp it to `[-MAX_VELOCITY, MAX_VELOCITY]`; finally
refresh the glyph when its per-node timer expired. -/
def updateNode (node : Node) (deltaTime canvasWidth canvasHeight now : ℝ)
    (r : FrameRandom) : Node :=
  let moved :=
    if node.isDragging then node
    else
      let x := node.x + node.vx * deltaTime * MOVEMENT_SPEED
      let y := node.y + node.vy * deltaTime * MOVEMENT_SPEED
      let vx := if x ≤ 0 ∨ canvasWidth ≤ x then -node.vx else node.vx
      let x := if x ≤ 0 ∨ canvasWidth ≤ x then clamp x 0 canvasWidth else x
      let vy := if y ≤ 0 ∨ canvasHeight ≤ y then -node.vy else node.vy
      let y := if y ≤ 0 ∨ canvasHeight ≤ y then clamp y 0 canvasHeight else y
      let vx := if r.perturb then clamp (vx + r.dvx) (-MAX_VELOCITY) MAX_VELOCITY else vx
      let vy := if r.perturb then clamp (vy + r.dvy) (-MAX_VELOCITY) MAX_VELOCITY else vy
      { node with x := x, y := y, vx := vx, vy := vy }
  if now - moved.lastCharUpdate > r.charInterval then
    { moved with char := r.newChar, color := r.newColor, lastCharUpdate := now }
  else moved

/-- Per-node body of `NodeNetworkAnimation.repositionNodes` (part_000
lines 237-245): clamp each coordinate into `[0, canvasSize - 50]`. -/
def repositionNode (node : Node) (canvasWidth canvasHeight : ℝ) : Node :=
  { node with
    x := clamp node.x 0 (canvasWidth - 50)
    y := clamp node.y 0 (canvasHeight - 50) }

/-- `NodeNetworkAnimation.repositionNodes` over the whole node list. -/
def repositionNodes (nodes : List Node) (canvasWidth canvasHeight : ℝ) : List Node :=
  nodes.map (fun node => repositionNode node canvasWidth canvasHeight)

/-- A `Connection` of the source holds references `nodeA`, `nodeB` and a
`strength`; the references are modelled as the indices of the two nodes
in the node list. -/
structure Conn where
  nodeA : ℕ
  nodeB : ℕ
  connStrength : ℝ

/-- Connection strength as computed by `updateConnections`:
`1 - (dist / maxConnectionDistance)`. -/
def strengthOf (maxConnectionDistance d : ℝ) : ℝ := 1 - d / maxConnectionDistance

/-- `NodeNetworkAnimation.updateConnections` (part_000 lines 336-357):
rebuild the connection list from scratch; for every index pair `i < j`
compute the Euclidean distance and keep the pair iff it is strictly
below `maxConnectionDistance`, with strength `1 - dist / max`.  The
inner `for (j = i + 1; ...)` loop is rendered as a filter `i < j` over
the index range. -/
def updateConnections (nodes : List Node) (maxConnectionDistance : ℝ) : List Conn :=
  (List.range nodes.length).flatMap fun i =>
    ((List.range nodes.length).filter fun j => i < j).filterMap fun j =>
      nodes[i]?.bind fun nodeA =>
        nodes[j]?.bind fun nodeB =>
          let d := distance nodeA.x nodeA.y nodeB.x nodeB.y
          if d < maxConnectionDistance then
            some ⟨i, j, strengthOf maxConnectionDistance d⟩
          else none

/-- One glyph-draw command issued by the connection renderer: position,
the gray channel value of the fill style, and its alpha. -/
structure DrawOp where
  x : ℝ
  y : ℝ
  gray : ℤ
  alpha : ℝ

/-- `NodeNetworkAnimation.renderConnection` (part_000 lines 384-408,
`drawGradientConnection` in NodeNetworkAnimation.ts): compute
`steps = Math.floor(dist / CHARACTER_SPACING)`; draw nothing when
`steps < 2`; otherwise draw one glyph for every `i` with
`1 <= i < steps` at the interpolated point, with
`gray = Math.floor(80 + (strength * progress * (1 - progress) * 4) * 100)`
and `alpha = strength * 0.4` where `progress = i / steps`. -/
def renderConnection (nodeA nodeB : Node) (strength : ℝ) : List DrawOp :=
  let d := distance nodeA.x nodeA.y nodeB.x nodeB.y
  let steps : ℤ := ⌊d / CHARACTER_SPACING⌋
  if steps < 2 then []
  else
    let dx := (nodeB.x - nodeA.x) / (steps : ℝ)
    let dy := (nodeB.y - nodeA.y) / (steps : ℝ)
    ((List.range steps.toNat).drop 1).map fun (i : ℕ) =>
      let progress : ℝ := (i : ℝ) / (steps : ℝ)
      { x := nodeA.x + dx * (i : ℝ)
        y := nodeA.y + dy * (i : ℝ)
        gray := ⌊80 + (strength * progress * (1 - progress) * 4) * 100⌋
        alpha := strength * 0.4 }

/-- The drag-interaction state of `NodeNetworkAnimation` (part_000):
the node list together with `this.isDragging`, `this.draggedNode`
(modelled as an index) and `this.mouseOffset`. -/
structure InteractionState where
  nodes : List Node
  isDragging : Bool
  draggedNode : Option ℕ
  mouseOffsetX : ℝ
  mouseOffsetY : ℝ

/-- `findNodeAtPosition` (part_000 lines 617-628): linear scan returning
the first node whose distance to the pointer is within the 25px
tolerance; the returned node reference is modelled as its index. -/
def findNodeAt (x y : ℝ) : List Node → Option ℕ
  | [] => none
  | n :: rest =>
    if Real.sqrt ((x - n.x) ^ 2 + (y - n.y) ^ 2) ≤ 25 then some 0
    else (findNodeAt x y rest).map (fun i => i + 1)

/-- Mutation applied to the clicked node by `handleMouseDown` /
`handleTouchStart`: save the velocity into `originalVx`/`originalVy`,
set `isDragging`, zero the velocity. -/
def pressNode (n : Node) : Node :=
  { n with
    originalVx := some n.vx
    originalVy := some n.vy
    isDragging := true
    vx := 0
    vy := 0 }

/-- Mutation applied to the dragged node by `handleMouseUp` /
`handleTouchEnd`: `vx = originalVx || (Math.random() - 0.5) * 0.5` (the
random draw is passed in as `r1`/`r2` already scaled), clear the drag
markers.  The JavaScript `||` falls back when the saved value is 0 or
absent. -/
def releaseNode (n : Node) (r1 r2 : ℝ) : Node :=
  { n with
    vx := jsOrNum n.originalVx r1
    vy := jsOrNum n.originalVy r2
    isDragging := false
    originalVx := none
    originalVy := none }

/-- `handleMouseDown` (part_000 lines 453-479): find the first node
within tolerance of the pointer; if found, mark the controller and the
node as dragging, record the pointer offset, save and zero the node's
velocity.  There is no check that a drag is already in progress. -/
def handleMouseDown (s : InteractionState) (x y : ℝ) : InteractionState :=
  match findNodeAt x y s.nodes with
  | none => s
  | some i =>
    match s.nodes[i]? with
    | none => s
    | some n =>
      { s with
        isDragging := true
        draggedNode := some i
        mouseOffsetX := x - n.x
        mouseOffsetY := y - n.y
        nodes := s.nodes.set i (pressNode n) }

/-- `handleTouchStart` (part_000 lines 527-553): same body as
`handleMouseDown`, but only when exactly one touch point is present. -/
def handleTouchStart (s : InteractionState) (touches : List (ℝ × ℝ)) : InteractionState :=
  if touches.length = 1 then
    match touches.head? with
    | none => s
    | some (x, y) => handleMouseDown s x y
  else s

/-- `handleMouseUp` (part_000 lines 509-524, also registered for
`mouseleave`): if a drag is in progress, restore (or re-roll) the
dragged node's velocity and clear its drag markers; always clear the
controller flags. -/
def handleMouseUp (s : InteractionState) (r1 r2 : ℝ) : InteractionState :=
  let s1 :=
    if s.isDragging then
      match s.draggedNode with
      | none => s
      | some i =>
        match s.nodes[i]? with
        | none => s
        | some n => { s with nodes := s.nodes.set i (releaseNode n r1 r2) }
    else s
  { s1 with isDragging := false, draggedNode := none }

/-- `handleTouchEnd` (part_000 lines 577-589): duplicated body of
`handleMouseUp` in the source, embedded with the same equations. -/
def handleTouchEnd (s : InteractionState) (r1 r2 : ℝ) : InteractionState :=
  let s1 :=
    if s.isDragging then
      match s.draggedNode with
      | none => s
      | some i =>
        match s.nodes[i]? with
        | none => s
        | some n => { s with nodes := s.nodes.set i (releaseNode n r1 r2) }
    else s
  { s1 with isDragging := false, draggedNode := none }

/-- Press and release events of the drag state machine (mouse-move and
touch-move do not touch any `isDragging` field and are outside the
claim's interleavings).  `mouseleave` runs the `handleMouseUp` handler
and is therefore covered by `mouseUp`. -/
inductive PointerEvent where
  | mouseDown (x y : ℝ)
  | touchStart (touches : List (ℝ × ℝ))
  | mouseUp (r1 r2 : ℝ)
  | touchEnd (r1 r2 : ℝ)

/-- Dispatch one event to its handler. -/
def step (s : InteractionState) : PointerEvent → InteractionState
  | .mouseDown x y => handleMouseDown s x y
  | .touchStart touches => handleTouchStart s touches
  | .mouseUp r1 r2 => handleMouseUp s r1 r2
  | .touchEnd r1 r2 => handleTouchEnd s r1 r2

/-- Run a sequence of pointer events. -/
def run (s : InteractionState) : List PointerEvent → InteractionState
  | [] => s
  | e :: es => run (step s e) es

/-- Number of nodes currently marked dragging, as reported by
`getMetrics().draggedNodeCount` (part_000 line 641). -/
def draggingCount (s : InteractionState) : ℕ :=
  (s.nodes.filter (fun n => n.isDragging)).length

/-- Guard singling out press events: a press is only `safe` when no drag
is currently in progress (the single-pointer assumption the handlers
themselves never check). -/
def pressGuard (s : InteractionState) : PointerEvent → Prop
  | .mouseDown _ _ => s.isDragging = false
  | .touchStart _ => s.isDragging = false
  | _ => True

/-- An event sequence is press-safe from `s` when every press event in
it is delivered in a state with no drag in progress. -/
def PressSafe (s : InteractionState) : List PointerEvent → Prop
  | [] => True
  | e :: es => pressGuard s e ∧ PressSafe (step s e) es

/-- Consistency of the drag bookkeeping: either no drag is in progress
and no node is marked dragging, or a drag is in progress, `draggedNode`
points at an existing node, and every node at any other index is not
marked dragging. -/
def DragInvariant (s : InteractionState) : Prop :=
  (s.isDragging = false ∧ ∀ n ∈ s.nodes, n.isDragging = false)
  ∨ (s.isDragging = true ∧ ∃ i n, s.draggedNode = some i ∧ s.nodes[i]? = some n ∧
      ∀ j m, j ≠ i → s.nodes[j]? = some m → m.isDragging = false)

/-- State of the `AnimationFrameManager` (src/shared/utils/animation.ts
lines 81-136) together with the host browser's animation-frame queue:
`pending` is the set of rAF ids scheduled and not yet fired or
cancelled, `nextId` the host's id counter (browser ids are >= 1, so 0
is the null handle), `active` the manager's `activeAnimations` set and
`isDestroyed` its destruction flag. -/
structure FrameSystem where
  pending : List ℕ
  nextId : ℕ
  active : List ℕ
  isDestroyed : Bool

/-- `AnimationFrameManager.requestFrame`: return the null handle 0
without scheduling when destroyed; otherwise schedule a fresh id with
the host and track it in `activeAnimations`. -/
def FrameSystem.requestFrame (s : FrameSystem) : FrameSystem × ℕ :=
  if s.isDestroyed then (s, 0)
  else
    let i := s.nextId + 1
    ({ s with pending := i :: s.pending, nextId := i, active := i :: s.active }, i)

/-- `AnimationFrameManager.cancelFrame`: cancel one id with the host and
drop it from the tracking set. -/
def FrameSystem.cancelFrame (s : FrameSystem) (i : ℕ) : FrameSystem :=
  { s with pending := s.pending.erase i, active := s.active.erase i }

/-- `AnimationFrameManager.cancelAllFrames`: call
`cancelAnimationFrame` on every tracked id, then clear the tracking
set. -/
def FrameSystem.cancelAllFrames (s : FrameSystem) : FrameSystem :=
  { s with pending := s.pending.filter (fun i => i ∉ s.active), active := [] }

/-- `AnimationFrameManager.destroy`: set `isDestroyed`, then cancel all
tracked frames. -/
def FrameSystem.destroy (s : FrameSystem) : FrameSystem :=
  FrameSystem.cancelAllFrames { s with isDestroyed := true }

/-- The host fires a scheduled callback: possible only for a pending id;
the wrapper registered by `requestFrame` removes the id from the
tracking set and invokes the user callback only when the manager is not
destroyed.  The boolean result records whether the user callback ran. -/
def FrameSystem.fire (s : FrameSystem) (i : ℕ) : FrameSystem × Bool :=
  if i ∈ s.pending then
    ({ s with pending := s.pending.erase i, active := s.active.erase i }, !s.isDestroyed)
  else (s, false)

/-- `handleScroll` (part_000 lines 152-164, `setupScrollOptimization` in
NodeNetworkAnimation.ts): recompute the scroll velocity as the absolute
difference of the throttled scroll samples and derive the frame-skip
threshold `frameSkipMax`.  Returns
(new scrollVelocity, new lastScrollY, new frameSkipMax). -/
def handleScroll (lastScrollY currentScrollY : ℝ) : ℝ × ℝ × ℕ :=
  let scrollVelocity := |currentScrollY - lastScrollY|
  (scrollVelocity, currentScrollY,
    if scrollVelocity > FRAME_SKIP_THRESHOLD then 4
    else if scrollVelocity > 5 then 2
    else 1)

/-- Concrete node builder for the concrete instances below: position and
velocity as given, fresh glyph bookkeeping, not dragging. -/
def mkNode (x y vx vy : ℝ) : Node :=
  { x := x, y := y, vx := vx, vy := vy, char := "", color := "",
    lastCharUpdate := 0 }

/-- Concrete frame randomness with the perturbation branch not taken and
a glyph-refresh interval large enough never to expire in the instances
below. -/
def noRandom : FrameRandom :=
  { perturb := false, dvx := 0, dvy := 0, charInterval := 1000000,
    newChar := "", newColor := "" }

/-- Concrete two-node interaction state: one node at the origin, one at
(100, 0), no drag in progress. -/
def twoNodeState : InteractionState :=
  { nodes := [mkNode 0 0 0 0, mkNode 100 0 0 0], isDragging := false,
    draggedNode := none, mouseOffsetX := 0, mouseOffsetY := 0 }

/-- Concrete one-node interaction state: a single node at (5, 5) moving
with velocity (0.3, 0), no drag in progress. -/
def oneNodeState : InteractionState :=
  { nodes := [mkNode 5 5 0.3 0], isDragging := false, draggedNode := none,
    mouseOffsetX := 0, mouseOffsetY := 0 }

/-- Evaluation helper: the Euclidean distance between two concrete
points whose squared distance is a perfect square. -/
theorem distance_eval (x1 y1 x2 y2 d : ℝ) (hd : 0 ≤ d)
    (h : (x2 - x1) * (x2 - x1) + (y2 - y1) * (y2 - y1) = d * d) :
    distance x1 y1 x2 y2 = d := by
  rw [distance, h, show d * d = d ^ 2 by ring, Real.sqrt_sq hd]

/-- Membership in the rebuilt connection list, characterised: a
connection is in the list exactly when its indices are an in-range pair
`i < j` whose nodes lie strictly within the connection distance, and its
strength is the strength formula at their distance. -/
theorem mem_updateConnections (nodes : List Node) (m : ℝ) (c : Conn) :
    c ∈ updateConnections nodes m ↔
      ∃ a b, c.nodeA < c.nodeB ∧ c.nodeB < nodes.length ∧
        nodes[c.nodeA]? = some a ∧ nodes[c.nodeB]? = some b ∧
        distance a.x a.y b.x b.y < m ∧
        c.connStrength = strengthOf m (distance a.x a.y b.x b.y) := by
  obtain ⟨i, j, s⟩ := c
  simp only [updateConnections, List.mem_flatMap, List.mem_filterMap, List.mem_filter,
    List.mem_range, decide_eq_true_eq, Option.bind_eq_some, Option.ite_none_right_eq_some,
    Option.some.injEq, Conn.mk.injEq]
  constructor
  · rintro ⟨i', hi', j', ⟨hj', hij'⟩, a, h1, b, h2, hlt, rfl, rfl, rfl⟩
    exact ⟨a, b, hij', hj', h1, h2, hlt, rfl⟩
  · rintro ⟨a, b, hij, hj, h1, h2, hlt, rfl⟩
    have hi : i < nodes.length := lt_trans hij hj
    exact ⟨i, hi, j, ⟨hj, hij⟩, a, h1, b, h2, hlt, rfl, rfl, rfl⟩

/-- C1: for every frame and every pair of distinct nodes taken with
index `i < j` in the node list, the connection list rebuilt by
`updateConnections` contains the pair iff the Euclidean distance between
them is strictly less than `maxConnectionDistance`; in that case the
stored strength is `1 - distance / maxConnectionDistance`, which lies in
`(0, 1]` and is monotonically decreasing in distance. -/
theorem updateConnections_iff_strength (nodes : List Node) (m : ℝ) (hm : 0 < m)
    (i j : ℕ) (hij : i < j) (hj : j < nodes.length) (a b : Node)
    (ha : nodes[i]? = some a) (hb : nodes[j]? = some b) :
    (Conn.mk i j (strengthOf m (distance a.x a.y b.x b.y)) ∈ updateConnections nodes m
      ↔ distance a.x a.y b.x b.y < m)
    ∧ (distance a.x a.y b.x b.y < m →
        0 < strengthOf m (distance a.x a.y b.x b.y)
          ∧ strengthOf m (distance a.x a.y b.x b.y) ≤ 1)
    ∧ (∀ d1 d2 : ℝ, 0 ≤ d1 → d1 ≤ d2 → strengthOf m d2 ≤ strengthOf m d1) := by
  refine ⟨?_, ?_, ?_⟩
  · rw [mem_updateConnections]
    constructor
    · rintro ⟨a', b', -, -, h1, h2, hlt, -⟩
      have haa : a' = a := by
        have := h1.symm.trans ha
        injection this
      have hbb : b' = b := by
        have := h2.symm.trans hb
        injection this
      rw [haa, hbb] at hlt
      exact hlt
    · intro hlt
      exact ⟨a, b, hij, hj, ha, hb, hlt, rfl⟩
  · intro hlt
    have h0 : 0 ≤ distance a.x a.y b.x b.y := Real.sqrt_nonneg _
    constructor
    · have : distance a.x a.y b.x b.y / m < 1 := (div_lt_one hm).mpr hlt
      rw [strengthOf]
      linarith
    · have : 0 ≤ distance a.x a.y b.x b.y / m := div_nonneg h0 (le_of_lt hm)
      rw [strengthOf]
      linarith
  · intro d1 d2 h1 h2
    have hdiv : d1 / m ≤ d2 / m := div_le_div_of_nonneg_right h2 hm.le
    rw [strengthOf, strengthOf]
    linarith


/-- Witness for C1, the spec scenario: three nodes at (0,0), (100,0)
and (400,0) with `maxConnectionDistance = 150`.  The pair (0,1) is
connected iff its distance (100) is below 150, the strength equals
`1 - 100 / 150`, and neither (0,2) nor (1,2) is connected with any
strength. -/
theorem updateConnections_scenario :
    ((Conn.mk 0 1 (strengthOf 150 (distance 0 0 100 0)) ∈
        updateConnections [mkNode 0 0 0 0, mkNode 100 0 0 0, mkNode 400 0 0 0] 150
      ↔ distance 0 0 100 0 < 150)
    ∧ (distance 0 0 100 0 < 150 →
        0 < strengthOf 150 (distance 0 0 100 0)
          ∧ strengthOf 150 (distance 0 0 100 0) ≤ 1)
    ∧ (∀ d1 d2 : ℝ, 0 ≤ d1 → d1 ≤ d2 → strengthOf 150 d2 ≤ strengthOf 150 d1))
    ∧ distance 0 0 100 0 < 150
    ∧ strengthOf 150 (distance 0 0 100 0) = 1 - 100 / 150
    ∧ (∀ s : ℝ, Conn.mk 0 2 s ∉
        updateConnections [mkNode 0 0 0 0, mkNode 100 0 0 0, mkNode 400 0 0 0] 150)
    ∧ (∀ s : ℝ, Conn.mk 1 2 s ∉
        updateConnections [mkNode 0 0 0 0, mkNode 100 0 0 0, mkNode 400 0 0 0] 150) := by
  have hd01 : distance 0 0 100 0 = 100 := distance_eval 0 0 100 0 100 (by norm_num) (by norm_num)
  have hd02 : distance 0 0 400 0 = 400 := distance_eval 0 0 400 0 400 (by norm_num) (by norm_num)
  have hd12 : distance 100 0 400 0 = 300 :=
    distance_eval 100 0 400 0 300 (by norm_num) (by norm_num)
  refine ⟨?_, ?_, ?_, ?_, ?_⟩
  · have H := updateConnections_iff_strength
      [mkNode 0 0 0 0, mkNode 100 0 0 0, mkNode 400 0 0 0] 150 (by norm_num) 0 1
      (by norm_num) (by simp) (mkNode 0 0 0 0) (mkNode 100 0 0 0) rfl rfl
    simpa [mkNode] using H
  · rw [hd01]; norm_num
  · rw [hd01, strengthOf]
  · intro s h
    rw [mem_updateConnections] at h
    obtain ⟨a, b, -, -, h1, h2, hlt, -⟩ := h
    have ha : mkNode 0 0 0 0 = a := by
      injection (rfl :
        ([mkNode 0 0 0 0, mkNode 100 0 0 0, mkNode 400 0 0 0])[(0:ℕ)]? =
          some (mkNode 0 0 0 0)).symm.trans h1
    have hb : mkNode 400 0 0 0 = b := by
      injection (rfl :
        ([mkNode 0 0 0 0, mkNode 100 0 0 0, mkNode 400 0 0 0])[(2:ℕ)]? =
          some (mkNode 400 0 0 0)).symm.trans h2
    rw [← ha, ← hb] at hlt
    rw [show (mkNode 0 0 0 0).x = 0 from rfl, show (mkNode 0 0 0 0).y = 0 from rfl,
      show (mkNode 400 0 0 0).x = 400 from rfl, show (mkNode 400 0 0 0).y = 0 from rfl,
      hd02] at hlt
    norm_num at hlt
  · intro s h
    rw [mem_updateConnections] at h
    obtain ⟨a, b, -, -, h1, h2, hlt, -⟩ := h
    have ha : mkNode 100 0 0 0 = a := by
      injection (rfl :
        ([mkNode 0 0 0 0, mkNode 100 0 0 0, mkNode 400 0 0 0])[(1:ℕ)]? =
          some (mkNode 100 0 0 0)).symm.trans h1
    have hb : mkNode 400 0 0 0 = b := by
      injection (rfl :
        ([mkNode 0 0 0 0, mkNode 100 0 0 0, mkNode 400 0 0 0])[(2:ℕ)]? =
          some (mkNode 400 0 0 0)).symm.trans h2
    rw [← ha, ← hb] at hlt
    rw [show (mkNode 100 0 0 0).x = 100 from rfl, show (mkNode 100 0 0 0).y = 0 from rfl,
      show (mkNode 400 0 0 0).x = 400 from rfl, show (mkNode 400 0 0 0).y = 0 from rfl,
      hd12] at hlt
    norm_num at hlt


/-- Projection helper: the x coordinate produced by one `updateNode`
call, as integration followed by the conditional bounce clamp. -/
theorem updateNode_x_eq (node : Node) (dt w h now : ℝ) (r : FrameRandom) :
    (updateNode node dt w h now r).x =
      if node.isDragging then node.x
      else
        if node.x + node.vx * dt * MOVEMENT_SPEED ≤ 0
            ∨ w ≤ node.x + node.vx * dt * MOVEMENT_SPEED then
          clamp (node.x + node.vx * dt * MOVEMENT_SPEED) 0 w
        else node.x + node.vx * dt * MOVEMENT_SPEED := by
  unfold updateNode
  by_cases hd : node.isDragging <;> simp only [updateNode, hd] <;> simp only [ite_true, ite_false, Bool.false_eq_true, if_false, if_true] <;> split <;> rfl

/-- Projection helper: the y coordinate produced by one `updateNode`
call. -/
theorem updateNode_y_eq (node : Node) (dt w h now : ℝ) (r : FrameRandom) :
    (updateNode node dt w h now r).y =
      if node.isDragging then node.y
      else
        if node.y + node.vy * dt * MOVEMENT_SPEED ≤ 0
            ∨ h ≤ node.y + node.vy * dt * MOVEMENT_SPEED then
          clamp (node.y + node.vy * dt * MOVEMENT_SPEED) 0 h
        else node.y + node.vy * dt * MOVEMENT_SPEED := by
  unfold updateNode
  by_cases hd : node.isDragging <;> simp only [updateNode, hd] <;> simp only [ite_true, ite_false, Bool.false_eq_true, if_false, if_true] <;> split <;> rfl

/-- Projection helper: the x velocity produced by one `updateNode`
call, as the conditional inversion followed by the optional
perturbation clamp. -/
theorem updateNode_vx_eq (node : Node) (dt w h now : ℝ) (r : FrameRandom) :
    (updateNode node dt w h now r).vx =
      if node.isDragging then node.vx
      else
        let vx1 := if node.x + node.vx * dt * MOVEMENT_SPEED ≤ 0
            ∨ w ≤ node.x + node.vx * dt * MOVEMENT_SPEED then -node.vx else node.vx
        if r.perturb then clamp (vx1 + r.dvx) (-MAX_VELOCITY) MAX_VELOCITY else vx1 := by
  unfold updateNode
  by_cases hd : node.isDragging <;> simp only [updateNode, hd] <;> simp only [ite_true, ite_false, Bool.false_eq_true, if_false, if_true] <;> split <;> rfl

/-- Projection helper: the y velocity produced by one `updateNode`
call. -/
theorem updateNode_vy_eq (node : Node) (dt w h now : ℝ) (r : FrameRandom) :
    (updateNode node dt w h now r).vy =
      if node.isDragging then node.vy
      else
        let vy1 := if node.y + node.vy * dt * MOVEMENT_SPEED ≤ 0
            ∨ h ≤ node.y + node.vy * dt * MOVEMENT_SPEED then -node.vy else node.vy
        if r.perturb then clamp (vy1 + r.dvy) (-MAX_VELOCITY) MAX_VELOCITY else vy1 := by
  unfold updateNode
  by_cases hd : node.isDragging <;> simp only [updateNode, hd] <;> simp only [ite_true, ite_false, Bool.false_eq_true, if_false, if_true] <;> split <;> rfl

/-- The clamp helper lands in the target interval whenever the interval
is nonempty. -/
theorem clamp_mem_Icc (v lo hi : ℝ) (hlohi : lo ≤ hi) : clamp v lo hi ∈ Set.Icc lo hi := by
  constructor
  · exact le_min (le_max_right v lo) hlohi
  · exact min_le_right _ _


/-- Counterexample for C2: on a 40 by 40 canvas (below the 50px
margin), a node at (10, 10) that is inside the canvas bounds is moved by
`repositionNode` to (-10, -10), outside `[0, 40] × [0, 40]` — so the
resize-triggered reposition does not keep in-bounds nodes in bounds. -/
theorem reposition_small_canvas_escapes_bounds :
    (mkNode 10 10 0 0).x ∈ Set.Icc (0:ℝ) 40 ∧ (mkNode 10 10 0 0).y ∈ Set.Icc (0:ℝ) 40
    ∧ (repositionNode (mkNode 10 10 0 0) 40 40).x = -10
    ∧ (repositionNode (mkNode 10 10 0 0) 40 40).x ∉ Set.Icc (0:ℝ) 40
    ∧ (repositionNode (mkNode 10 10 0 0) 40 40).y = -10 := by
  refine ⟨?_, ?_, ?_, ?_, ?_⟩
  · constructor <;> norm_num [mkNode]
  · constructor <;> norm_num [mkNode]
  · show clamp (10:ℝ) 0 (40 - 50) = -10
    rw [clamp]
    rw [show max (10:ℝ) 0 = 10 from max_eq_left (by norm_num)]
    rw [show min (10:ℝ) (40 - 50) = -10 by rw [min_eq_right (by norm_num)]; norm_num]
  · intro hmem
    have : (repositionNode (mkNode 10 10 0 0) 40 40).x = -10 := by
      show clamp (10:ℝ) 0 (40 - 50) = -10
      rw [clamp]
      rw [show max (10:ℝ) 0 = 10 from max_eq_left (by norm_num)]
      rw [show min (10:ℝ) (40 - 50) = -10 by rw [min_eq_right (by norm_num)]; norm_num]
    rw [this] at hmem
    exact absurd hmem.1 (by norm_num)
  · show clamp (10:ℝ) 0 (40 - 50) = -10
    rw [clamp]
    rw [show max (10:ℝ) 0 = 10 from max_eq_left (by norm_num)]
    rw [show min (10:ℝ) (40 - 50) = -10 by rw [min_eq_right (by norm_num)]; norm_num]

/-- C2 (amended): for nonnegative canvas bounds, a node whose position
is within `[0, canvasWidth] × [0, canvasHeight]` before a per-frame
update is within those bounds after it, and a coordinate whose
integrated value crosses 0 or the bound has that axis velocity inverted
and the coordinate clamped back into `[0, bound]` (reflective wall); the
resize-triggered reposition keeps nodes in bounds provided both canvas
dimensions are at least 50 (it clamps into `[0, size - 50]`). -/
theorem position_bounds_amended (node : Node) (dt w h now : ℝ) (r : FrameRandom)
    (hw : 0 ≤ w) (hh : 0 ≤ h)
    (hx : node.x ∈ Set.Icc 0 w) (hy : node.y ∈ Set.Icc 0 h) :
    ((updateNode node dt w h now r).x ∈ Set.Icc 0 w
      ∧ (updateNode node dt w h now r).y ∈ Set.Icc 0 h)
    ∧ (node.isDragging = false → r.perturb = false →
        (node.x + node.vx * dt * MOVEMENT_SPEED ≤ 0
            ∨ w ≤ node.x + node.vx * dt * MOVEMENT_SPEED →
          (updateNode node dt w h now r).vx = -node.vx
            ∧ (updateNode node dt w h now r).x
              = clamp (node.x + node.vx * dt * MOVEMENT_SPEED) 0 w))
    ∧ (50 ≤ w → 50 ≤ h →
        (repositionNode node w h).x ∈ Set.Icc 0 w
          ∧ (repositionNode node w h).y ∈ Set.Icc 0 h) := by
  refine ⟨⟨?_, ?_⟩, ?_, ?_⟩
  · rw [updateNode_x_eq]
    by_cases hd : node.isDragging
    · simpa [hd] using hx
    · simp only [hd, if_false, Bool.false_eq_true, ite_false]
      split
      · exact clamp_mem_Icc _ 0 w hw
      · rename_i hin
        push_neg at hin
        exact ⟨le_of_lt hin.1, le_of_lt hin.2⟩
  · rw [updateNode_y_eq]
    by_cases hd : node.isDragging
    · simpa [hd] using hy
    · simp only [hd, if_false, Bool.false_eq_true, ite_false]
      split
      · exact clamp_mem_Icc _ 0 h hh
      · rename_i hin
        push_neg at hin
        exact ⟨le_of_lt hin.1, le_of_lt hin.2⟩
  · intro hd hp hcross
    constructor
    · rw [updateNode_vx_eq]
      simp [hd, hp, hcross]
    · rw [updateNode_x_eq]
      simp [hd, hcross]
  · intro hw50 hh50
    constructor
    · have := clamp_mem_Icc node.x 0 (w - 50) (by linarith)
      refine ⟨this.1, le_trans this.2 (by linarith)⟩
    · have := clamp_mem_Icc node.y 0 (h - 50) (by linarith)
      refine ⟨this.1, le_trans this.2 (by linarith)⟩


/-- The clamp helper is the identity on values already inside the
interval. -/
theorem clamp_eq_self (v lo hi : ℝ) (h1 : lo ≤ v) (h2 : v ≤ hi) : clamp v lo hi = v := by
  rw [clamp, max_eq_left h1, min_eq_left h2]

/-- Clamping into a symmetric interval bounds the absolute value. -/
theorem abs_clamp_le (v m : ℝ) (hm : 0 ≤ m) : |clamp v (-m) m| ≤ m := by
  have hmem := clamp_mem_Icc v (-m) m (by linarith)
  exact abs_le.mpr ⟨hmem.1, hmem.2⟩

/-- Witness for C2 (amended) at a concrete node, update and
reposition on a 200 by 200 canvas. -/
theorem position_bounds_amended_instance :
    ((updateNode (mkNode 10 10 0.5 0.5) 16 200 200 0 noRandom).x ∈ Set.Icc (0:ℝ) 200
      ∧ (updateNode (mkNode 10 10 0.5 0.5) 16 200 200 0 noRandom).y ∈ Set.Icc (0:ℝ) 200)
    ∧ ((repositionNode (mkNode 10 10 0.5 0.5) 200 200).x ∈ Set.Icc (0:ℝ) 200
      ∧ (repositionNode (mkNode 10 10 0.5 0.5) 200 200).y ∈ Set.Icc (0:ℝ) 200) := by
  have H := position_bounds_amended (mkNode 10 10 0.5 0.5) 16 200 200 0 noRandom
    (by norm_num) (by norm_num)
    (by constructor <;> norm_num [mkNode]) (by constructor <;> norm_num [mkNode])
  exact ⟨H.1, H.2.2 (by norm_num) (by norm_num)⟩

/-- C3: a node whose velocity components are within
`[-MAX_VELOCITY, MAX_VELOCITY]` before a per-frame update satisfies the
same bound after it — on the perturbation path via the explicit clamp
and on the no-perturbation path because a bounce only flips the sign;
additionally the drag-release path (restore-or-reroll, with the reroll
draw within the bound) and the initialization path
(`randomVelocity` with maxSpeed 0.5 and unit-interval draws) satisfy
the bound. -/
theorem velocity_bound_preserved (node : Node) (dt w h now : ℝ) (r : FrameRandom)
    (hvx : |node.vx| ≤ MAX_VELOCITY) (hvy : |node.vy| ≤ MAX_VELOCITY) :
    (|(updateNode node dt w h now r).vx| ≤ MAX_VELOCITY
      ∧ |(updateNode node dt w h now r).vy| ≤ MAX_VELOCITY)
    ∧ (∀ (n : Node) (r1 r2 : ℝ), |r1| ≤ MAX_VELOCITY → |r2| ≤ MAX_VELOCITY →
        (∀ v, n.originalVx = some v → |v| ≤ MAX_VELOCITY) →
        (∀ v, n.originalVy = some v → |v| ≤ MAX_VELOCITY) →
        |(releaseNode n r1 r2).vx| ≤ MAX_VELOCITY ∧ |(releaseNode n r1 r2).vy| ≤ MAX_VELOCITY)
    ∧ (∀ u1 u2 : ℝ, 0 ≤ u1 → u1 ≤ 1 → 0 ≤ u2 → u2 ≤ 1 →
        |(randomVelocity u1 u2 0.5).1| ≤ MAX_VELOCITY
          ∧ |(randomVelocity u1 u2 0.5).2| ≤ MAX_VELOCITY) := by
  have hM : (0:ℝ) ≤ MAX_VELOCITY := by norm_num [MAX_VELOCITY]
  refine ⟨⟨?_, ?_⟩, ?_, ?_⟩
  · rw [updateNode_vx_eq]
    by_cases hd : node.isDragging
    · simpa [hd] using hvx
    · simp only [hd, Bool.false_eq_true, if_false, ite_false]
      by_cases hp : r.perturb
      · simp only [hp, ite_true, if_true]
        exact abs_clamp_le _ _ hM
      · simp only [hp, Bool.false_eq_true, ite_false, if_false]
        split
        · rwa [abs_neg]
        · exact hvx
  · rw [updateNode_vy_eq]
    by_cases hd : node.isDragging
    · simpa [hd] using hvy
    · simp only [hd, Bool.false_eq_true, if_false, ite_false]
      by_cases hp : r.perturb
      · simp only [hp, ite_true, if_true]
        exact abs_clamp_le _ _ hM
      · simp only [hp, Bool.false_eq_true, ite_false, if_false]
        split
        · rwa [abs_neg]
        · exact hvy
  · intro n r1 r2 hr1 hr2 hox hoy
    constructor
    · show |jsOrNum n.originalVx r1| ≤ MAX_VELOCITY
      cases hov : n.originalVx with
      | none => exact hr1
      | some v =>
        show |if v = 0 then r1 else v| ≤ MAX_VELOCITY
        split
        · exact hr1
        · exact hox v hov
    · show |jsOrNum n.originalVy r2| ≤ MAX_VELOCITY
      cases hov : n.originalVy with
      | none => exact hr2
      | some v =>
        show |if v = 0 then r2 else v| ≤ MAX_VELOCITY
        split
        · exact hr2
        · exact hoy v hov
  · intro u1 u2 h1 h2 h3 h4
    constructor
    · show |(u1 - 0.5) * 0.5| ≤ MAX_VELOCITY
      rw [abs_le, MAX_VELOCITY]
      constructor <;> nlinarith
    · show |(u2 - 0.5) * 0.5| ≤ MAX_VELOCITY
      rw [abs_le, MAX_VELOCITY]
      constructor <;> nlinarith


/-- Witness for C3 at a concrete node with velocity (0.5, 0.5),
a concrete press/release pair and concrete initialization draws. -/
theorem velocity_bound_instance :
    (|(updateNode (mkNode 0 0 0.5 0.5) 16 200 200 0 noRandom).vx| ≤ MAX_VELOCITY
      ∧ |(updateNode (mkNode 0 0 0.5 0.5) 16 200 200 0 noRandom).vy| ≤ MAX_VELOCITY)
    ∧ (|(releaseNode (pressNode (mkNode 0 0 0.5 0.5)) 0.1 0.1).vx| ≤ MAX_VELOCITY
      ∧ |(releaseNode (pressNode (mkNode 0 0 0.5 0.5)) 0.1 0.1).vy| ≤ MAX_VELOCITY)
    ∧ (|(randomVelocity 0.25 0.75 0.5).1| ≤ MAX_VELOCITY
      ∧ |(randomVelocity 0.25 0.75 0.5).2| ≤ MAX_VELOCITY) := by
  have habs : |(0.5:ℝ)| ≤ MAX_VELOCITY := by
    rw [abs_le, MAX_VELOCITY]
    constructor <;> norm_num
  have H := velocity_bound_preserved (mkNode 0 0 0.5 0.5) 16 200 200 0 noRandom habs habs
  refine ⟨H.1, ?_, H.2.2 0.25 0.75 (by norm_num) (by norm_num) (by norm_num) (by norm_num)⟩
  refine H.2.1 (pressNode (mkNode 0 0 0.5 0.5)) 0.1 0.1 ?_ ?_ ?_ ?_
  · rw [abs_le, MAX_VELOCITY]
    constructor <;> norm_num
  · rw [abs_le, MAX_VELOCITY]
    constructor <;> norm_num
  · intro v hv
    simp only [pressNode, mkNode, Option.some.injEq] at hv
    rw [← hv]
    exact habs
  · intro v hv
    simp only [pressNode, mkNode, Option.some.injEq] at hv
    rw [← hv]
    exact habs

/-- Counterexample for C4: `updateNodes` never clamps `deltaTime`; at
`deltaTime = -100` a non-dragged node at x = 100 with vx = 0.5 moves
backwards to x = 99, so a negative time delta is not treated as
zero-effect. -/
theorem negative_dt_moves_node :
    (-100 : ℝ) < 0
    ∧ (updateNode (mkNode 100 100 0.5 0) (-100) 200 200 0 noRandom).x = 99
    ∧ (mkNode 100 100 0.5 0).x = 100 := by
  have hx1 : (mkNode 100 100 0.5 0).x
      + (mkNode 100 100 0.5 0).vx * (-100) * MOVEMENT_SPEED = 99 := by
    norm_num [mkNode, MOVEMENT_SPEED]
  refine ⟨by norm_num, ?_, by norm_num [mkNode]⟩
  rw [updateNode_x_eq]
  rw [if_neg (by simp [mkNode] : ¬((mkNode 100 100 0.5 0).isDragging = true))]
  rw [hx1]
  rw [if_neg (by norm_num : ¬((99:ℝ) ≤ 0 ∨ (200:ℝ) ≤ 99))]

/-- C4 (amended): the per-frame update applies `deltaTime` unclamped;
only `deltaTime = 0` is guaranteed zero-effect — for an in-bounds node a
zero delta leaves the position unchanged (a negative delta integrates
backwards, see the counterexample). -/
theorem zero_dt_zero_effect (node : Node) (w h now : ℝ) (r : FrameRandom)
    (hx : node.x ∈ Set.Icc 0 w) (hy : node.y ∈ Set.Icc 0 h) :
    (updateNode node 0 w h now r).x = node.x ∧ (updateNode node 0 w h now r).y = node.y := by
  constructor
  · rw [updateNode_x_eq]
    have h0 : node.x + node.vx * 0 * MOVEMENT_SPEED = node.x := by ring
    by_cases hd : node.isDragging
    · simp [hd]
    · simp only [hd, Bool.false_eq_true, if_false, ite_false]
      rw [h0]
      split
      · exact clamp_eq_self node.x 0 w hx.1 hx.2
      · rfl
  · rw [updateNode_y_eq]
    have h0 : node.y + node.vy * 0 * MOVEMENT_SPEED = node.y := by ring
    by_cases hd : node.isDragging
    · simp [hd]
    · simp only [hd, Bool.false_eq_true, if_false, ite_false]
      rw [h0]
      split
      · exact clamp_eq_self node.y 0 h hy.1 hy.2
      · rfl

/-- Witness for C4 (amended) at a concrete in-bounds node and
`deltaTime = 0`. -/
theorem zero_dt_instance :
    (updateNode (mkNode 5 5 0.5 0.5) 0 100 100 0 noRandom).x = (mkNode 5 5 0.5 0.5).x
    ∧ (updateNode (mkNode 5 5 0.5 0.5) 0 100 100 0 noRandom).y = (mkNode 5 5 0.5 0.5).y :=
  zero_dt_zero_effect (mkNode 5 5 0.5 0.5) 100 100 0 noRandom
    (by constructor <;> norm_num [mkNode]) (by constructor <;> norm_num [mkNode])


/-- Evaluation helper for the pointer-distance expression of
`findNodeAt` at concrete points. -/
theorem sqrt_sq_pt (x y nx ny d : ℝ) (hd : 0 ≤ d)
    (h : (x - nx) ^ 2 + (y - ny) ^ 2 = d ^ 2) :
    Real.sqrt ((x - nx) ^ 2 + (y - ny) ^ 2) = d := by
  rw [h, Real.sqrt_sq hd]

/-- Counterexample for C5: from a clean two-node state, a mouse press
on node 0 followed by a touch press on node 1 — a press through the
other input modality while the first drag is still in progress — leaves
two nodes with `isDragging = true`, because neither press handler checks
whether a drag is already active. -/
theorem second_press_two_dragging :
    1 < draggingCount (run twoNodeState
      [PointerEvent.mouseDown 0 0, PointerEvent.touchStart [(100, 0)]]) := by
  have hzero : Real.sqrt (((0:ℝ) - (mkNode 0 0 0 0).x) ^ 2
      + ((0:ℝ) - (mkNode 0 0 0 0).y) ^ 2) ≤ 25 := by
    rw [sqrt_sq_pt 0 0 (mkNode 0 0 0 0).x (mkNode 0 0 0 0).y 0 le_rfl
      (by norm_num [mkNode])]
    norm_num
  have hfind1 : findNodeAt 0 0 twoNodeState.nodes = some 0 := by
    show findNodeAt 0 0 [mkNode 0 0 0 0, mkNode 100 0 0 0] = some 0
    simp only [findNodeAt]
    rw [if_pos hzero]
  have hs1 : handleMouseDown twoNodeState 0 0 =
      { nodes := [pressNode (mkNode 0 0 0 0), mkNode 100 0 0 0], isDragging := true,
        draggedNode := some 0, mouseOffsetX := (0:ℝ) - 0, mouseOffsetY := (0:ℝ) - 0 } := by
    unfold handleMouseDown
    rw [hfind1]
    rfl
  have hfar : ¬ (Real.sqrt (((100:ℝ) - (pressNode (mkNode 0 0 0 0)).x) ^ 2
      + ((0:ℝ) - (pressNode (mkNode 0 0 0 0)).y) ^ 2) ≤ 25) := by
    rw [sqrt_sq_pt 100 0 (pressNode (mkNode 0 0 0 0)).x (pressNode (mkNode 0 0 0 0)).y 100
      (by norm_num) (by norm_num [pressNode, mkNode])]
    norm_num
  have hnear : Real.sqrt (((100:ℝ) - (mkNode 100 0 0 0).x) ^ 2
      + ((0:ℝ) - (mkNode 100 0 0 0).y) ^ 2) ≤ 25 := by
    rw [sqrt_sq_pt 100 0 (mkNode 100 0 0 0).x (mkNode 100 0 0 0).y 0 le_rfl
      (by norm_num [mkNode])]
    norm_num
  have hfind2 : findNodeAt 100 0 [pressNode (mkNode 0 0 0 0), mkNode 100 0 0 0] = some 1 := by
    simp only [findNodeAt]
    rw [if_neg hfar, if_pos hnear]
    rfl
  show 1 < draggingCount (step (step twoNodeState (PointerEvent.mouseDown 0 0))
    (PointerEvent.touchStart [(100, 0)]))
  rw [show step twoNodeState (PointerEvent.mouseDown 0 0)
      = handleMouseDown twoNodeState 0 0 from rfl, hs1]
  show 1 < draggingCount (handleMouseDown
    { nodes := [pressNode (mkNode 0 0 0 0), mkNode 100 0 0 0], isDragging := true,
      draggedNode := some 0, mouseOffsetX := (0:ℝ) - 0, mouseOffsetY := (0:ℝ) - 0 } 100 0)
  unfold handleMouseDown
  rw [hfind2]
  show 1 < draggingCount
    { nodes := [pressNode (mkNode 0 0 0 0), pressNode (mkNode 100 0 0 0)], isDragging := true,
      draggedNode := some 1, mouseOffsetX := (100:ℝ) - 100, mouseOffsetY := (0:ℝ) - 0 }
  show 1 < 2
  norm_num


/-- Helper: if every index other than `i` holds a non-dragging node,
at most one node in the list is dragging. -/
theorem filter_dragging_le_one (l : List Node) (i : ℕ)
    (h : ∀ j m, j ≠ i → l[j]? = some m → m.isDragging = false) :
    (l.filter (fun n => n.isDragging)).length ≤ 1 := by
  induction l generalizing i with
  | nil => simp
  | cons a t ih =>
    cases i with
    | zero =>
      have ht : List.filter (fun n => n.isDragging) t = [] := by
        rw [List.filter_eq_nil_iff]
        intro n hn
        obtain ⟨k, hk, hke⟩ := List.getElem_of_mem hn
        have hget : (a :: t)[k + 1]? = some n := by
          rw [List.getElem?_cons_succ, List.getElem?_eq_getElem hk, hke]
        simp [h (k + 1) n (by omega) hget]
      rw [List.filter_cons]
      split
      · simp [ht]
      · simp [ht]
    | succ k =>
      have ha : a.isDragging = false := h 0 a (by omega) (by simp)
      rw [List.filter_cons, if_neg (by simp [ha])]
      refine ih k ?_
      intro j m hj hm
      refine h (j + 1) m (by omega) ?_
      rw [List.getElem?_cons_succ]
      exact hm

/-- Helper: the drag bookkeeping invariant bounds the dragging count
by one. -/
theorem dragInvariant_count_le_one (s : InteractionState) (hinv : DragInvariant s) :
    draggingCount s ≤ 1 := by
  rcases hinv with ⟨-, hall⟩ | ⟨-, i, n, -, -, hothers⟩
  · rw [draggingCount]
    have hnil : s.nodes.filter (fun n => n.isDragging) = [] := by
      rw [List.filter_eq_nil_iff]
      intro a ha
      simp [hall a ha]
    rw [hnil]
    simp
  · exact filter_dragging_le_one s.nodes i hothers

/-- Helper: a press delivered in a state with no drag in progress and
no marked node re-establishes the drag invariant. -/
theorem handleMouseDown_dragInvariant (s : InteractionState) (x y : ℝ)
    (hs : s.isDragging = false) (hall : ∀ n ∈ s.nodes, n.isDragging = false) :
    DragInvariant (handleMouseDown s x y) := by
  unfold handleMouseDown
  split
  · exact Or.inl ⟨hs, hall⟩
  · rename_i i hf
    split
    · exact Or.inl ⟨hs, hall⟩
    · rename_i n hg
      have hi : i < s.nodes.length := (List.getElem?_eq_some.mp hg).1
      refine Or.inr ⟨rfl, i, pressNode n, rfl, ?_, ?_⟩
      · show (s.nodes.set i (pressNode n))[i]? = some (pressNode n)
        simp [List.getElem?_set, hi]
      · intro j m hj hm
        have hm2 : s.nodes[j]? = some m := by
          rwa [List.getElem?_set_ne (Ne.symm hj)] at hm
        exact hall m (List.getElem?_mem hm2)

/-- Helper: the release handler preserves the drag invariant from any
state satisfying it. -/
theorem handleMouseUp_dragInvariant (s : InteractionState) (r1 r2 : ℝ)
    (hinv : DragInvariant s) : DragInvariant (handleMouseUp s r1 r2) := by
  unfold handleMouseUp
  rcases hinv with ⟨hs, hall⟩ | ⟨hs, i, n, hdn, hni, hothers⟩
  · rw [if_neg (by simp [hs])]
    exact Or.inl ⟨rfl, hall⟩
  · rw [if_pos hs]
    simp only [hdn, hni]
    refine Or.inl ⟨rfl, ?_⟩
    intro m hm
    have hm2 : m ∈ s.nodes.set i (releaseNode n r1 r2) := hm
    obtain ⟨j, hjlt, hje⟩ := List.getElem_of_mem hm2
    have hj : (s.nodes.set i (releaseNode n r1 r2))[j]? = some m := by
      rw [List.getElem?_eq_getElem hjlt, hje]
    by_cases hji : j = i
    · subst hji
      have hilen : j < s.nodes.length := by
        simpa using hjlt
      rw [List.getElem?_set, if_pos rfl, if_pos hilen] at hj
      have hmr : releaseNode n r1 r2 = m := by injection hj
      rw [← hmr]
      rfl
    · rw [List.getElem?_set_ne (Ne.symm hji)] at hj
      exact hothers j m hji hj

/-- Helper: every event preserves the drag invariant provided press
events only arrive while no drag is in progress. -/
theorem step_preserves_dragInvariant (s : InteractionState) (e : PointerEvent)
    (hinv : DragInvariant s) (hguard : pressGuard s e) :
    DragInvariant (step s e) := by
  cases e with
  | mouseDown x y =>
    have hGf : s.isDragging = false := hguard
    have hall : ∀ n ∈ s.nodes, n.isDragging = false := by
      rcases hinv with ⟨-, hall⟩ | ⟨hT, -⟩
      · exact hall
      · rw [hGf] at hT
        simp at hT
    exact handleMouseDown_dragInvariant s x y hGf hall
  | touchStart touches =>
    have hGf : s.isDragging = false := hguard
    have hall : ∀ n ∈ s.nodes, n.isDragging = false := by
      rcases hinv with ⟨-, hall⟩ | ⟨hT, -⟩
      · exact hall
      · rw [hGf] at hT
        simp at hT
    show DragInvariant (handleTouchStart s touches)
    unfold handleTouchStart
    split
    · cases touches.head? with
      | none => exact Or.inl ⟨hGf, hall⟩
      | some p =>
        obtain ⟨x, y⟩ := p
        exact handleMouseDown_dragInvariant s x y hGf hall
    · exact Or.inl ⟨hGf, hall⟩
  | mouseUp r1 r2 => exact handleMouseUp_dragInvariant s r1 r2 hinv
  | touchEnd r1 r2 => exact handleMouseUp_dragInvariant s r1 r2 hinv

/-- C5 (amended): at most one node is in `isDragging = true` at every
instant, for every interleaving of the press and release handlers in
which each press is delivered while no drag is in progress; the
counterexample shows the restriction is necessary — a press during an
active drag (e.g. through the other modality) marks a second node. -/
theorem single_drag_invariant (s : InteractionState) (es : List PointerEvent)
    (hinv : DragInvariant s) (hsafe : PressSafe s es) :
    draggingCount (run s es) ≤ 1 := by
  induction es generalizing s with
  | nil => exact dragInvariant_count_le_one s hinv
  | cons e es ih =>
    have hsafe2 : pressGuard s e ∧ PressSafe (step s e) es := hsafe
    exact ih (step s e) (step_preserves_dragInvariant s e hinv hsafe2.1) hsafe2.2

/-- Witness for C5 (amended): the concrete one-node state satisfies
the invariant and a concrete press trace keeps the dragging count at
most one. -/
theorem single_drag_instance :
    DragInvariant oneNodeState
    ∧ draggingCount (run oneNodeState [PointerEvent.mouseDown 5 5]) ≤ 1 := by
  have hinv : DragInvariant oneNodeState := by
    refine Or.inl ⟨rfl, ?_⟩
    intro n hn
    have hn2 : n = mkNode 5 5 0.3 0 := by simpa [oneNodeState] using hn
    rw [hn2]
    rfl
  exact ⟨hinv, single_drag_invariant oneNodeState [PointerEvent.mouseDown 5 5] hinv
    ⟨rfl, trivial⟩⟩


/-- C6: pressing on a node found under the pointer and then releasing
without any intervening move leaves the node position unchanged; each
released velocity component is either the pre-drag component or the
fresh random draw, and when the pre-drag velocity is nonzero the
released velocity is never exactly (0, 0). -/
theorem drag_release_roundtrip (s : InteractionState) (x y r1 r2 : ℝ) (i : ℕ) (n : Node)
    (hfind : findNodeAt x y s.nodes = some i) (hget : s.nodes[i]? = some n) :
    ∃ n2, (handleMouseUp (handleMouseDown s x y) r1 r2).nodes[i]? = some n2
      ∧ n2.x = n.x ∧ n2.y = n.y
      ∧ (n2.vx = n.vx ∨ n2.vx = r1) ∧ (n2.vy = n.vy ∨ n2.vy = r2)
      ∧ (¬(n.vx = 0 ∧ n.vy = 0) → ¬(n2.vx = 0 ∧ n2.vy = 0)) := by
  have hi : i < s.nodes.length := (List.getElem?_eq_some.mp hget).1
  have hdown : handleMouseDown s x y =
      { s with
        isDragging := true, draggedNode := some i,
        mouseOffsetX := x - n.x, mouseOffsetY := y - n.y,
        nodes := s.nodes.set i (pressNode n) } := by
    unfold handleMouseDown
    simp only [hfind, hget]
  have hvx2 : (releaseNode (pressNode n) r1 r2).vx = if n.vx = 0 then r1 else n.vx := rfl
  have hvy2 : (releaseNode (pressNode n) r1 r2).vy = if n.vy = 0 then r2 else n.vy := rfl
  have hset : (s.nodes.set i (pressNode n))[i]? = some (pressNode n) := by
    simp [List.getElem?_set, hi]
  have hseteq : (handleMouseUp (handleMouseDown s x y) r1 r2).nodes
      = (s.nodes.set i (pressNode n)).set i (releaseNode (pressNode n) r1 r2) := by
    rw [hdown]
    unfold handleMouseUp
    rw [if_pos rfl]
    simp only [hset]
  refine ⟨releaseNode (pressNode n) r1 r2, ?_, rfl, rfl, ?_, ?_, ?_⟩
  · rw [hseteq]
    simp [List.getElem?_set, hi]
  · rw [hvx2]
    by_cases h0 : n.vx = 0
    · rw [if_pos h0, h0]
      right
      rfl
    · rw [if_neg h0]
      left
      rfl
  · rw [hvy2]
    by_cases h0 : n.vy = 0
    · rw [if_pos h0, h0]
      right
      rfl
    · rw [if_neg h0]
      left
      rfl
  · intro h0 hboth
    obtain ⟨h1, h2⟩ := hboth
    by_cases hvx : n.vx = 0
    · have hvy : ¬ n.vy = 0 := fun hvy => h0 ⟨hvx, hvy⟩
      rw [hvy2, if_neg hvy] at h2
      exact hvy h2
    · rw [hvx2, if_neg hvx] at h1
      exact hvx h1

/-- Witness for C6: a concrete press at (5,5) on a node with pre-drag
velocity (0.3, 0) followed by a release. -/
theorem drag_release_instance :
    ∃ n2, (handleMouseUp (handleMouseDown oneNodeState 5 5) 0.1 0.2).nodes[(0:ℕ)]? = some n2
      ∧ n2.x = (mkNode 5 5 0.3 0).x ∧ n2.y = (mkNode 5 5 0.3 0).y
      ∧ (n2.vx = (mkNode 5 5 0.3 0).vx ∨ n2.vx = 0.1)
      ∧ (n2.vy = (mkNode 5 5 0.3 0).vy ∨ n2.vy = 0.2)
      ∧ (¬((mkNode 5 5 0.3 0).vx = 0 ∧ (mkNode 5 5 0.3 0).vy = 0) →
          ¬(n2.vx = 0 ∧ n2.vy = 0)) := by
  have hzero5 : Real.sqrt (((5:ℝ) - (mkNode 5 5 0.3 0).x) ^ 2
      + ((5:ℝ) - (mkNode 5 5 0.3 0).y) ^ 2) ≤ 25 := by
    rw [sqrt_sq_pt 5 5 (mkNode 5 5 0.3 0).x (mkNode 5 5 0.3 0).y 0 le_rfl
      (by norm_num [mkNode])]
    norm_num
  have hfind : findNodeAt 5 5 oneNodeState.nodes = some 0 := by
    show findNodeAt 5 5 [mkNode 5 5 0.3 0] = some 0
    simp only [findNodeAt]
    rw [if_pos hzero5]
  exact drag_release_roundtrip oneNodeState 5 5 0.1 0.2 0 (mkNode 5 5 0.3 0) hfind rfl


/-- C7: the frame-skip threshold recomputed by the scroll handler is
the monotone step function of the scroll-velocity sample
`|currentScrollY - lastScrollY|`: above 20 gives 4, in (5, 20] gives 2,
at most 5 gives 1, and the threshold is monotone in the velocity. -/
theorem frame_skip_step_function (lastY curY : ℝ) :
    ((handleScroll lastY curY).1 = |curY - lastY|)
    ∧ ((handleScroll lastY curY).1 > 20 → (handleScroll lastY curY).2.2 = 4)
    ∧ (5 < (handleScroll lastY curY).1 ∧ (handleScroll lastY curY).1 ≤ 20 →
        (handleScroll lastY curY).2.2 = 2)
    ∧ ((handleScroll lastY curY).1 ≤ 5 → (handleScroll lastY curY).2.2 = 1)
    ∧ (∀ l2 c2 : ℝ, (handleScroll lastY curY).1 ≤ (handleScroll l2 c2).1 →
        (handleScroll lastY curY).2.2 ≤ (handleScroll l2 c2).2.2) := by
  have hval : ∀ a b : ℝ, (handleScroll a b).2.2
      = if |b - a| > 20 then 4 else if |b - a| > 5 then 2 else 1 := fun a b => rfl
  refine ⟨rfl, ?_, ?_, ?_, ?_⟩
  · intro hgt
    have hgt2 : |curY - lastY| > 20 := hgt
    rw [hval, if_pos hgt2]
  · intro hpair
    obtain ⟨h5, h20⟩ := hpair
    have h52 : (5:ℝ) < |curY - lastY| := h5
    have hn : ¬ (|curY - lastY| > 20) := not_lt.mpr h20
    rw [hval, if_neg hn, if_pos h52]
  · intro hle
    have hle2 : |curY - lastY| ≤ 5 := hle
    rw [hval, if_neg (not_lt.mpr (le_trans hle2 (by norm_num))),
      if_neg (not_lt.mpr hle2)]
  · intro l2 c2 hle
    have hle2 : |curY - lastY| ≤ |c2 - l2| := hle
    rw [hval, hval]
    by_cases ha : |curY - lastY| > 20
    · rw [if_pos ha, if_pos (by linarith : |c2 - l2| > 20)]
    · rw [if_neg ha]
      by_cases hb : |curY - lastY| > 5
      · rw [if_pos hb]
        by_cases hc : |c2 - l2| > 20
        · rw [if_pos hc]
          norm_num
        · rw [if_neg hc, if_pos (by linarith : |c2 - l2| > 5)]
      · rw [if_neg hb]
        by_cases hc : |c2 - l2| > 20
        · rw [if_pos hc]
          norm_num
        · rw [if_neg hc]
          by_cases hd : |c2 - l2| > 5
          · rw [if_pos hd]
            norm_num
          · rw [if_neg hd]

/-- Witness for C7 at the concrete scroll samples 30, 12 and 3. -/
theorem frame_skip_instance :
    (handleScroll 0 30).1 = |(30:ℝ) - 0|
    ∧ (handleScroll 0 30).2.2 = 4
    ∧ (handleScroll 0 12).2.2 = 2
    ∧ (handleScroll 0 3).2.2 = 1 := by
  have h30 : |(30:ℝ) - 0| = 30 := by
    rw [abs_of_nonneg (by norm_num : (0:ℝ) ≤ 30 - 0)]
    norm_num
  have h12 : |(12:ℝ) - 0| = 12 := by
    rw [abs_of_nonneg (by norm_num : (0:ℝ) ≤ 12 - 0)]
    norm_num
  have h3 : |(3:ℝ) - 0| = 3 := by
    rw [abs_of_nonneg (by norm_num : (0:ℝ) ≤ 3 - 0)]
    norm_num
  refine ⟨(frame_skip_step_function 0 30).1, ?_, ?_, ?_⟩
  · refine (frame_skip_step_function 0 30).2.1 ?_
    show |(30:ℝ) - 0| > 20
    rw [h30]
    norm_num
  · refine (frame_skip_step_function 0 12).2.2.1 ⟨?_, ?_⟩
    · show (5:ℝ) < |(12:ℝ) - 0|
      rw [h12]
      norm_num
    · show |(12:ℝ) - 0| ≤ 20
      rw [h12]
      norm_num
  · refine (frame_skip_step_function 0 3).2.2.2.1 ?_
    show |(3:ℝ) - 0| ≤ 5
    rw [h3]
    norm_num

/-- C8: after `AnimationFrameManager.destroy`, every id that was in
the tracking set is no longer pending with the host (cancelled
synchronously), the tracking set is empty, the manager is marked
destroyed, every subsequent `requestFrame` returns the null handle 0
without changing any state, and no host fire after destruction ever
invokes a user callback. -/
theorem destroy_cancels_everything (s : FrameSystem) :
    (∀ i ∈ s.active, i ∉ (FrameSystem.destroy s).pending)
    ∧ (FrameSystem.destroy s).active = []
    ∧ (FrameSystem.destroy s).isDestroyed = true
    ∧ ((FrameSystem.destroy s).requestFrame).2 = 0
    ∧ ((FrameSystem.destroy s).requestFrame).1 = FrameSystem.destroy s
    ∧ (∀ i : ℕ, ((FrameSystem.destroy s).fire i).2 = false) := by
  refine ⟨?_, rfl, rfl, rfl, rfl, ?_⟩
  · intro i hi hmem
    have hf : i ∈ s.pending.filter (fun j => decide (j ∉ s.active)) := hmem
    rw [List.mem_filter] at hf
    exact (by simpa using hf.2 : i ∉ s.active) hi
  · intro i
    rw [FrameSystem.fire]
    split
    · rfl
    · rfl

/-- Witness for C8 on a concrete manager with one scheduled frame. -/
theorem destroy_cancels_instance :
    (5:ℕ) ∉ (FrameSystem.destroy ⟨[5], 5, [5], false⟩).pending
    ∧ (FrameSystem.destroy ⟨[5], 5, [5], false⟩).active = []
    ∧ ((FrameSystem.destroy ⟨[5], 5, [5], false⟩).requestFrame).2 = 0
    ∧ ((FrameSystem.destroy ⟨[5], 5, [5], false⟩).fire 5).2 = false := by
  have H := destroy_cancels_everything ⟨[5], 5, [5], false⟩
  exact ⟨H.1 5 (by simp), H.2.1, H.2.2.2.1, H.2.2.2.2.2 5⟩


/-- C9 (amended): with `steps = floor(distance / characterSpacing)`,
the connection renderer draws nothing when `steps < 2`; otherwise it
draws exactly one glyph per interior step `i` in `[1, steps)` (the claim
said `[1, steps-1)`; the counterexample at `steps = 2` forces the upper
end to `steps`), the k-th draw landing at the interpolated point for
`i = k + 1` with gray value
`floor(80 + strength * progress * (1 - progress) * 4 * 100)` and alpha
`strength * 0.4`. -/
theorem renderConnection_characterization (nodeA nodeB : Node) (strength : ℝ) (steps : ℤ)
    (hsteps : steps = ⌊distance nodeA.x nodeA.y nodeB.x nodeB.y / CHARACTER_SPACING⌋) :
    (steps < 2 → renderConnection nodeA nodeB strength = [])
    ∧ (2 ≤ steps →
        (renderConnection nodeA nodeB strength).length = steps.toNat - 1
        ∧ ∀ (k : ℕ) (hk : k < (renderConnection nodeA nodeB strength).length),
            (renderConnection nodeA nodeB strength).get ⟨k, hk⟩ =
              { x := nodeA.x + (nodeB.x - nodeA.x) / (steps : ℝ) * ((k + 1 : ℕ) : ℝ)
                y := nodeA.y + (nodeB.y - nodeA.y) / (steps : ℝ) * ((k + 1 : ℕ) : ℝ)
                gray := ⌊80 + strength * (((k + 1 : ℕ) : ℝ) / (steps : ℝ))
                    * (1 - ((k + 1 : ℕ) : ℝ) / (steps : ℝ)) * 4 * 100⌋
                alpha := strength * 0.4 }) := by
  have hexp : ¬ (steps < 2) → renderConnection nodeA nodeB strength =
      ((List.range steps.toNat).drop 1).map fun (i : ℕ) =>
        { x := nodeA.x + (nodeB.x - nodeA.x) / (steps : ℝ) * (i : ℝ)
          y := nodeA.y + (nodeB.y - nodeA.y) / (steps : ℝ) * (i : ℝ)
          gray := ⌊80 + strength * ((i : ℝ) / (steps : ℝ))
              * (1 - (i : ℝ) / (steps : ℝ)) * 4 * 100⌋
          alpha := strength * 0.4 } := by
    intro hne
    simp only [renderConnection]
    rw [← hsteps, if_neg hne]
  constructor
  · intro hlt
    simp only [renderConnection]
    rw [← hsteps, if_pos hlt]
  · intro hge
    have hne : ¬ (steps < 2) := not_lt.mpr hge
    constructor
    · rw [hexp hne, List.length_map, List.length_drop, List.length_range]
    · intro k hk
      rw [List.get_eq_getElem]
      simp only [hexp hne]
      simp only [List.getElem_map, List.getElem_drop, List.getElem_range]
      rw [show 1 + k = k + 1 from Nat.add_comm 1 k]

/-- Counterexample for C9: a connection of length 16 has
`steps = floor(16 / 8) = 2`; the claimed glyph range `[1, steps - 1)` is
empty there, yet the renderer draws exactly one glyph (the loop runs
over `[1, steps)`). -/
theorem render_two_steps_draws_one :
    ⌊distance (mkNode 0 0 0 0).x (mkNode 0 0 0 0).y (mkNode 16 0 0 0).x (mkNode 16 0 0 0).y
        / CHARACTER_SPACING⌋ = 2
    ∧ (renderConnection (mkNode 0 0 0 0) (mkNode 16 0 0 0) (1/2)).length = 1 := by
  have hd : distance (mkNode 0 0 0 0).x (mkNode 0 0 0 0).y
      (mkNode 16 0 0 0).x (mkNode 16 0 0 0).y = 16 := by
    show distance 0 0 16 0 = 16
    exact distance_eval 0 0 16 0 16 (by norm_num) (by norm_num)
  have hfl : ⌊(16:ℝ) / CHARACTER_SPACING⌋ = 2 := by
    rw [CHARACTER_SPACING, show (16:ℝ) / 8 = 2 by norm_num]
    norm_num
  constructor
  · rw [hd, hfl]
  · simp only [renderConnection]
    rw [hd, hfl]
    rw [if_neg (by norm_num : ¬ (2:ℤ) < 2)]
    rw [List.length_map, List.length_drop, List.length_range]
    rfl


/-- Witness for C9 (amended) on a concrete connection of length 24
(`steps = 3`), which draws `3 - 1 = 2` glyphs. -/
theorem renderConnection_instance :
    (renderConnection (mkNode 0 0 0 0) (mkNode 24 0 0 0) (1/2)).length = (3:ℤ).toNat - 1 := by
  have hd : distance (mkNode 0 0 0 0).x (mkNode 0 0 0 0).y
      (mkNode 24 0 0 0).x (mkNode 24 0 0 0).y = 24 := by
    show distance 0 0 24 0 = 24
    exact distance_eval 0 0 24 0 24 (by norm_num) (by norm_num)
  have hsteps : (3:ℤ) = ⌊distance (mkNode 0 0 0 0).x (mkNode 0 0 0 0).y
      (mkNode 24 0 0 0).x (mkNode 24 0 0 0).y / CHARACTER_SPACING⌋ := by
    rw [hd, CHARACTER_SPACING, show (24:ℝ) / 8 = 3 by norm_num]
    norm_num
  exact ((renderConnection_characterization (mkNode 0 0 0 0) (mkNode 24 0 0 0) (1/2)
    3 hsteps).2 (by norm_num)).1

/-- C10: whenever `max < min`, the helper
`clamp(v, min, max) = Math.min(Math.max(v, min), max)` returns `max` for
every input; consequently `repositionNodes`, which clamps coordinates to
`[0, canvasSize - 50]`, assigns the negative coordinate `size - 50` to
every node on the corresponding axis when a canvas dimension is below
50 pixels. -/
theorem clamp_inverted_range (v lo hi w h : ℝ) (node : Node) :
    (hi < lo → clamp v lo hi = hi)
    ∧ (w < 50 → (repositionNode node w h).x = w - 50 ∧ (repositionNode node w h).x < 0)
    ∧ (h < 50 → (repositionNode node w h).y = h - 50 ∧ (repositionNode node w h).y < 0) := by
  have key : ∀ a l u : ℝ, u < l → clamp a l u = u := by
    intro a l u hul
    rw [clamp]
    exact min_eq_right (le_trans (le_of_lt hul) (le_max_right a l))
  refine ⟨key v lo hi, ?_, ?_⟩
  · intro hw
    have hx : (repositionNode node w h).x = w - 50 := by
      show clamp node.x 0 (w - 50) = w - 50
      exact key node.x 0 (w - 50) (by linarith)
    exact ⟨hx, by rw [hx]; linarith⟩
  · intro hh
    have hy : (repositionNode node w h).y = h - 50 := by
      show clamp node.y 0 (h - 50) = h - 50
      exact key node.y 0 (h - 50) (by linarith)
    exact ⟨hy, by rw [hy]; linarith⟩

/-- Witness for C10: `clamp 7 0 (-10) = -10`, and on a 40 by 45
canvas every node is repositioned to negative coordinates on both
axes. -/
theorem clamp_inverted_instance :
    clamp 7 0 (-10) = -10
    ∧ ((repositionNode (mkNode 10 10 0 0) 40 45).x = 40 - 50
        ∧ (repositionNode (mkNode 10 10 0 0) 40 45).x < 0)
    ∧ ((repositionNode (mkNode 10 10 0 0) 40 45).y = 45 - 50
        ∧ (repositionNode (mkNode 10 10 0 0) 40 45).y < 0) := by
  have H := clamp_inverted_range 7 0 (-10) 40 45 (mkNode 10 10 0 0)
  exact ⟨H.1 (by norm_num), H.2.1 (by norm_num), H.2.2 (by norm_num)⟩

end

end Psychopism
